import Mathlib

/-!
# Verification of `src/train.py` (frostml training driver)

Shallow embedding of the training driver in `src/train.py`: the CLI parser's
pin-memory handling, the checkpoint resume logic, the epoch loop of `main`,
the per-batch structure of the `train` and `valid` passes, and the metric
tracker used for the cross-process reduction.  Components of the `frostml`
package that are not part of `src/` (notably `frostml.utils.EpochTracker`)
and external collaborators (the torch `StepLR` scheduler) are modelled from
the specification, and each such definition says so in its doc comment.
Scalar metric values are embedded as rationals.
-/

/-! ## CLI parser (`init_parser`, lines 19-54) — pin-memory handling -/

/-- The optional command-line flags, abstracted to the ones that can touch the
pin-memory setting.  `pinMemory` is `--pin-memory` (`action='store_true'`, dest
`pin_memory`); `noPinMemory` is `--no-pin-memory` (`action='store_false'`,
`dest='pin-memory'` — note the hyphen: it targets the attribute literally named
`pin-memory`, not `pin_memory`); `otherFlag` stands for any other accepted
option, which touches neither attribute. -/
inductive CliFlag
  | pinMemory
  | noPinMemory
  | otherFlag
deriving DecidableEq

/-- The slice of the argparse namespace relevant to pin-memory.  `pin_memory`
is the attribute read by `build_dataloader`; `pin_memory_hyphen` stands for
the attribute whose Python name is the string `pin-memory` (not a valid
identifier there either), the destination of `--no-pin-memory`. -/
structure ArgNamespace where
  pin_memory : Bool
  pin_memory_hyphen : Bool
deriving DecidableEq

/-- Defaults after `parser.set_defaults(pin_memory=True)` (line 42): the
`pin_memory` attribute defaults to `True`; the `store_false` action's own
destination `pin-memory` defaults to `True` as well. -/
def parserDefaults : ArgNamespace :=
  { pin_memory := true, pin_memory_hyphen := true }

/-- Effect of one present flag on the namespace (lines 40-41). -/
def applyFlag (ns : ArgNamespace) : CliFlag → ArgNamespace
  | .pinMemory => { ns with pin_memory := true }
  | .noPinMemory => { ns with pin_memory_hyphen := false }
  | .otherFlag => ns

/-- `parser.parse_args`, restricted to the pin-memory slice: start from the
defaults and apply every present flag in command-line order. -/
def parse_args (flags : List CliFlag) : ArgNamespace :=
  flags.foldl applyFlag parserDefaults

/-- The DataLoader construction arguments that `build_dataloader`
(lines 153-160) passes explicitly, for one of the two loaders. -/
structure DataLoaderCfg where
  batch_size : ℕ
  num_workers : ℕ
  pin_memory : Bool
  drop_last : Bool
deriving DecidableEq

/-- `build_dataloader` (lines 132-161), restricted to the loader
configuration: both the train loader and the valid loader are built with
`pin_memory=args.pin_memory` and `drop_last=True`. -/
def build_dataloader (batch_size num_workers : ℕ) (pin_memory : Bool) :
    DataLoaderCfg × DataLoaderCfg :=
  ({ batch_size := batch_size, num_workers := num_workers,
     pin_memory := pin_memory, drop_last := true },
   { batch_size := batch_size, num_workers := num_workers,
     pin_memory := pin_memory, drop_last := true })

/-! ## Metric tracker (`frostml.utils.EpochTracker`) -/

/-- Per-batch scalar readings delivered by the opaque model / criterion /
evaluator collaborators: the loss and the top-1 / top-5 accuracies for one
batch, as consumed by `tracker.update(...)` (lines 184-186, 223-225). -/
structure BatchMetrics where
  loss : ℚ
  acc1 : ℚ
  acc5 : ℚ
deriving DecidableEq

/-- Modelled from the spec: the per-metric accumulator of
`frostml.utils.EpochTracker` (the `MetricAccumulator` of §3, source not under
`src/`).  Tracks the last reading, the running sum and the running count. -/
structure ValueTracker where
  value : ℚ
  total : ℚ
  count : ℕ
deriving DecidableEq

/-- Modelled from the spec: a freshly created accumulator, before any
observation. -/
def ValueTracker.init : ValueTracker := ⟨0, 0, 0⟩

/-- Modelled from the spec: `update(value)` appends one scalar observation —
the last value becomes `value`, the sum grows by `value`, the count by one. -/
def ValueTracker.update (t : ValueTracker) (v : ℚ) : ValueTracker :=
  ⟨v, t.total + v, t.count + 1⟩

/-- Modelled from the spec: `global_average = sum / count` (read after the
cross-process reduction has replaced sum and count by their global values). -/
def ValueTracker.global_average (t : ValueTracker) : ℚ :=
  t.total / (t.count : ℚ)

/-- Modelled from the spec: the backing store of `EpochTracker.trackers`, an
ordered mapping from metric name to accumulator with lazy creation on first
`update` of an unseen name. -/
def updateEntry : List (String × ValueTracker) → String → ℚ →
    List (String × ValueTracker)
  | [], name, v => [(name, ValueTracker.init.update v)]
  | (n, vt) :: rest, name, v =>
      if n = name then (n, vt.update v) :: rest
      else (n, vt) :: updateEntry rest name v

/-- Modelled from the spec: `frostml.utils.EpochTracker` (source not under
`src/`): an ordered mapping from metric name to `ValueTracker`, exposed to
the runner as the attribute `trackers`. -/
structure EpochTracker where
  trackers : List (String × ValueTracker)
deriving DecidableEq

/-- Modelled from the spec: a tracker created fresh at the start of an epoch
pass (`utils.EpochTracker()`, lines 168 and 211). -/
def EpochTracker.empty : EpochTracker := ⟨[]⟩

/-- Modelled from the spec: `tracker.update(name=value)` — updates the named
accumulator, lazily creating it on first use. -/
def EpochTracker.update (t : EpochTracker) (name : String) (v : ℚ) :
    EpochTracker :=
  ⟨updateEntry t.trackers name v⟩

/-- Lookup of a named accumulator (`tracker.trackers[name]`), as an option. -/
def lookupVT (t : EpochTracker) (name : String) : Option ValueTracker :=
  t.trackers.lookup name

/-- One iteration of the tracker bookkeeping in the `valid` loop
(lines 223-225): update `loss`, then `acc1`, then `acc5` with this batch's
readings. -/
def trackBatch (t : EpochTracker) (b : BatchMetrics) : EpochTracker :=
  ((t.update "loss" b.loss).update "acc1" b.acc1).update "acc5" b.acc5

/-- The tracker state a process holds at the end of a pass over its batches,
before the cross-process reduction. -/
def runTracker (bs : List BatchMetrics) : EpochTracker :=
  bs.foldl trackBatch EpochTracker.empty

/-- Modelled from the spec: the global (all-reduce, sum) total for one metric
name over a world of per-process trackers; a process whose tracker lacks the
name contributes zero. -/
def worldTotal (w : List EpochTracker) (name : String) : ℚ :=
  (w.map (fun t => ((lookupVT t name).getD ValueTracker.init).total)).sum

/-- Modelled from the spec: the global (all-reduce, sum) count for one metric
name over a world of per-process trackers. -/
def worldCount (w : List EpochTracker) (name : String) : ℕ :=
  (w.map (fun t => ((lookupVT t name).getD ValueTracker.init).count)).sum

/-- Modelled from the spec: `synchronize_between_processes()` as seen by one
process of the world `w`: each of its accumulators has its `(total, count)`
replaced by the sums over all processes. -/
def syncTracker (w : List EpochTracker) (t : EpochTracker) : EpochTracker :=
  ⟨t.trackers.map (fun p =>
    (p.1, { p.2 with total := worldTotal w p.1, count := worldCount w p.1 }))⟩

/-- The scalar returned by `valid` (line 244) on process `p` of a world of
per-process batch lists: `tracker.trackers['acc1'].global_average` after the
cross-process reduction. -/
def valid_score (world : List (List BatchMetrics)) (p : ℕ) : ℚ :=
  let ts := world.map runTracker
  ((lookupVT (syncTracker ts (ts.getD p EpochTracker.empty)) "acc1").getD
    ValueTracker.init).global_average

/-! ## LR scheduler and checkpoint resume (`main`, lines 79-92) -/

/-- Modelled from the spec: the external LR scheduler collaborator
(`torch.optim.lr_scheduler.StepLR`, §6: `step()` advances one epoch,
serializable state, supports being fast-forwarded to an arbitrary epoch
index).  Its mutable state is the epoch index `last_epoch`; the immutable
construction parameters are kept so that state equality is full scheduler
equality. -/
structure StepLR where
  step_size : ℕ
  gamma : ℚ
  base_lr : ℚ
  last_epoch : ℕ
deriving DecidableEq

/-- Modelled from the spec: a freshly constructed scheduler
(`StepLR(optimizer, step_size, gamma)`, line 80), positioned at epoch 0. -/
def StepLR.init (ss : ℕ) (g lr : ℚ) : StepLR :=
  { step_size := ss, gamma := g, base_lr := lr, last_epoch := 0 }

/-- Modelled from the spec: `scheduler.step()` advances one epoch. -/
def StepLR.step (s : StepLR) : StepLR :=
  { s with last_epoch := s.last_epoch + 1 }

/-- Modelled from the spec: `scheduler.step(epoch)` fast-forwards the
scheduler to the given epoch index (line 92). -/
def StepLR.step_to (s : StepLR) (e : ℕ) : StepLR :=
  { s with last_epoch := e }

/-- Modelled from the spec: the serializable scheduler state
(`scheduler.state_dict()`), namely the epoch index. -/
def StepLR.state_dict (s : StepLR) : ℕ := s.last_epoch

/-- Modelled from the spec: `scheduler.load_state_dict(blob)` restores the
stored epoch index (line 90). -/
def StepLR.load_state_dict (s : StepLR) (e : ℕ) : StepLR :=
  { s with last_epoch := e }

/-- Modelled from the spec: the learning rate determined by the scheduler
state, `base_lr * gamma ^ (last_epoch / step_size)` (step decay). -/
def StepLR.lr (s : StepLR) : ℚ :=
  s.base_lr * s.gamma ^ (s.last_epoch / s.step_size)

/-- A checkpoint blob as built at lines 116-121 and as loaded at line 86: the
`model` entry is always present (line 87 reads it unconditionally); the
`epoch`, `optimizer` and `scheduler` entries may be absent from a foreign
blob, hence options.  Model and optimizer blobs are opaque. -/
structure Checkpoint where
  epoch : Option ℕ
  model : ℕ
  optimizer : Option ℕ
  scheduler : Option ℕ
deriving DecidableEq

/-- The outcome of the resume block: the epoch the loop will start at, the
optimizer state and the scheduler state in effect at line 93. -/
structure ResumeResult where
  start_epoch : ℕ
  optimizer : ℕ
  scheduler : StepLR
deriving DecidableEq

/-- The resume block of `main` (lines 85-92): if `'optimizer'`, `'scheduler'`
and `'epoch'` are all present in the loaded checkpoint, load the optimizer
and scheduler states and set `start_epoch` to the stored epoch plus one;
otherwise keep the fresh states and the command-line `start_epoch`.  Either
way,
finish with `scheduler.step(args.start_epoch)`. -/
def resume_from (ck : Checkpoint) (arg_start : ℕ) (opt0 : ℕ)
    (sched0 : StepLR) : ResumeResult :=
  match ck.optimizer, ck.scheduler, ck.epoch with
  | some o, some sl, some e =>
      { start_epoch := e + 1, optimizer := o,
        scheduler := (sched0.load_state_dict sl).step_to (e + 1) }
  | _, _, _ =>
      { start_epoch := arg_start, optimizer := opt0,
        scheduler := sched0.step_to arg_start }

/-! ## Epoch loop of `main` (lines 105-129) -/

/-- The observable actions of one driver epoch, in program order. -/
inductive DrvEv
  | trainPass (e : ℕ)
  | validPass (e : ℕ)
  | schedStep (e : ℕ)
  | saveCkpt (e : ℕ)
  | saveBest (e : ℕ)
deriving DecidableEq

/-- Whether a driver event is the best-checkpoint write. -/
def DrvEv.isSaveBest : DrvEv → Bool
  | .saveBest _ => true
  | _ => false

/-- The driver state threaded through the epoch loop: the scheduler, the
best score so far (`best_accuracy = 0.` at line 105), the contents of
`checkpoint.pth` and `best_checkpoint.pth`, and the event trace. -/
structure DriverState where
  sched : StepLR
  best_accuracy : ℚ
  ckptFile : Option Checkpoint
  bestFile : Option Checkpoint
  events : List DrvEv
deriving DecidableEq

/-- The checkpoint dict built at lines 116-121: the current epoch, the
(opaque) model and optimizer blobs, and the scheduler state — all keys
present. -/
def mkCheckpoint (e : ℕ) (modelState optState : ℕ) (sched : StepLR) :
    Checkpoint :=
  { epoch := some e, model := modelState, optimizer := some optState,
    scheduler := some sched.state_dict }

/-- One iteration of the epoch loop (lines 108-129): run the train pass, run
the valid pass obtaining `score`, step the scheduler, build the checkpoint,
write `checkpoint.pth` when a save directory is configured, and on a strict
improvement (`best_accuracy < score`, line 126) update `best_accuracy` and
write `best_checkpoint.pth`. -/
def epochBody (save_dir : Bool) (modelState optState : ℕ) (e : ℕ) (score : ℚ)
    (st : DriverState) : DriverState :=
  let sched := st.sched.step
  let ck := mkCheckpoint e modelState optState sched
  let st1 : DriverState :=
    { st with sched := sched,
              events := st.events ++ [.trainPass e, .validPass e, .schedStep e] }
  let st2 : DriverState :=
    if save_dir then
      { st1 with ckptFile := some ck, events := st1.events ++ [.saveCkpt e] }
    else st1
  if st2.best_accuracy < score then
    let st3 : DriverState := { st2 with best_accuracy := score }
    if save_dir then
      { st3 with bestFile := some ck, events := st3.events ++ [.saveBest e] }
    else st3
  else st2

/-- The epoch loop `for epoch in range(args.start_epoch, args.epochs)`
(line 108), driven by the list of validation scores the opaque collaborators
will produce for the successive epochs (one score per remaining epoch, so the
loop runs `scores.length = args.epochs - args.start_epoch` times). -/
def driverLoop (save_dir : Bool) (modelState optState : ℕ) :
    ℕ → List ℚ → DriverState → DriverState
  | _, [], st => st
  | e, sc :: rest, st =>
      driverLoop save_dir modelState optState (e + 1) rest
        (epochBody save_dir modelState optState e sc st)

/-- The driver state at line 107: fresh best accuracy, no files written yet,
empty trace, scheduler as produced by startup (and, when resuming, by the
resume block). -/
def initDriver (sched : StepLR) : DriverState :=
  { sched := sched, best_accuracy := 0, ckptFile := none, bestFile := none,
    events := [] }

/-! ## Trace embedding of the `train` and `valid` passes (lines 164-244) -/

/-- Which pass a barrier event belongs to. -/
inductive PassKind
  | trainK
  | validK
deriving DecidableEq

/-- The observable actions inside a pass, in program order: the per-batch
operations (forward, loss, metric computation, gradient zeroing, backward,
optimizer step), the tracker bookkeeping (`record` is one `tracker.update`
call, `display` the progress print), the telemetry writes
(`writer.add_scalar(tag, value, step)` — the written scalar value is omitted,
the tag and step are kept), the cross-process reduction barrier
(`synchronize_between_processes`) and the epoch summary. -/
inductive Ev
  | forwardB
  | computeLoss
  | computeMetrics
  | zeroGrad
  | backward
  | optStep
  | record (metric : String)
  | display
  | telemetry (tag : String) (step : ℕ)
  | syncBarrier (k : PassKind)
  | summarize
deriving DecidableEq

/-- Whether an event is the reduction barrier. -/
def Ev.isSync : Ev → Bool
  | .syncBarrier _ => true
  | _ => false

/-- Whether an event is a telemetry write. -/
def Ev.isTelemetry : Ev → Bool
  | .telemetry _ _ => true
  | _ => false

/-- Whether an event is one of the per-batch operations the spec's
order-of-operations sentence talks about (forward, loss, metrics, zeroing,
backward, optimizer step, metric recording). -/
def Ev.isOp : Ev → Bool
  | .forwardB => true
  | .computeLoss => true
  | .computeMetrics => true
  | .zeroGrad => true
  | .backward => true
  | .optStep => true
  | .record _ => true
  | _ => false

/-- The slice of the argparse namespace the passes read.  `writer = none`
models the state in which the attribute `writer` was never assigned (the
lines 99-103 block did not run), so that reading `args.writer` raises
`AttributeError`; `writer = some w` models an assigned attribute holding
either `None` (`w = none`) or a `SummaryWriter` (`w = some ()`). -/
structure PassArgs where
  tensorboard_dir : Option String
  writer : Option (Option Unit)
  epochs : ℕ
deriving DecidableEq

/-- Reading `args.writer`: an unassigned attribute raises `AttributeError`
(Python attribute access on the argparse namespace). -/
def getWriter (a : PassArgs) : Except String (Option Unit) :=
  match a.writer with
  | none => .error "AttributeError: writer"
  | some w => .ok w

/-- The writer-initialization block of `main` (lines 99-103): when a
telemetry directory is configured, the main process assigns a
`SummaryWriter` to `args.writer` and every other process assigns `None`;
when no telemetry directory is configured, the block does not run and the
attribute is never assigned. -/
def setup_writer (tensorboard_dir : Option String) (is_main : Bool) :
    Option (Option Unit) :=
  match tensorboard_dir with
  | some _ => if is_main then some (some ()) else some none
  | none => none

/-- One iteration of the `train` batch loop (lines 170-193), as a trace
extension: forward (174), loss (175), metrics (176), `zero_grad` (178),
`backward` (179), `optimizer.step` (180), the three `tracker.update` calls
(184-186), `display` (187), then — only reached after a successful read of
`args.writer` — the three per-batch telemetry writes at the global step
`epoch * len(dataloader) + idx` (189-193). -/
def trainBatchStep (epoch nBatches : ℕ) (a : PassArgs) (acc : List Ev)
    (idx : ℕ) : Except String (List Ev) := do
  let acc := acc ++
    [Ev.forwardB, Ev.computeLoss, Ev.computeMetrics, Ev.zeroGrad, Ev.backward,
     Ev.optStep, Ev.record "loss", Ev.record "acc1", Ev.record "acc5",
     Ev.display]
  match ← getWriter a with
  | some _ =>
      pure (acc ++
        [Ev.telemetry "train / loss (batch)" (epoch * nBatches + idx),
         Ev.telemetry "train / acc1 (batch)" (epoch * nBatches + idx),
         Ev.telemetry "train / acc5 (batch)" (epoch * nBatches + idx)])
  | none => pure acc

/-- The `train` pass (lines 164-203) as a trace: the batch loop over
`range(len(dataloader))`, then the reduction barrier (196) and the summary
(197), then — after reading `args.writer` again — the three per-epoch
telemetry writes at step `epoch` (199-203). -/
def train_pass (nBatches epoch : ℕ) (a : PassArgs) : Except String (List Ev) := do
  let acc ← (List.range nBatches).foldlM (trainBatchStep epoch nBatches a)
    ([] : List Ev)
  let acc := acc ++ [Ev.syncBarrier .trainK, Ev.summarize]
  match ← getWriter a with
  | some _ =>
      pure (acc ++
        [Ev.telemetry "train / loss (epoch)" epoch,
         Ev.telemetry "train / acc1 (epoch)" epoch,
         Ev.telemetry "train / acc5 (epoch)" epoch])
  | none => pure acc

/-- One iteration of the `valid` batch loop (lines 213-232): forward (217),
loss (218), metrics (219), the three `tracker.update` calls (223-225),
`display` (226), then the per-batch telemetry writes (228-232).  No gradient
zeroing, backward, or optimizer step occurs in the eval pass. -/
def validBatchStep (epoch nBatches : ℕ) (a : PassArgs) (acc : List Ev)
    (idx : ℕ) : Except String (List Ev) := do
  let acc := acc ++
    [Ev.forwardB, Ev.computeLoss, Ev.computeMetrics, Ev.record "loss",
     Ev.record "acc1", Ev.record "acc5", Ev.display]
  match ← getWriter a with
  | some _ =>
      pure (acc ++
        [Ev.telemetry "valid / loss (batch)" (epoch * nBatches + idx),
         Ev.telemetry "valid / acc1 (batch)" (epoch * nBatches + idx),
         Ev.telemetry "valid / acc5 (batch)" (epoch * nBatches + idx)])
  | none => pure acc

/-- The `valid` pass (lines 206-244) as a trace: the batch loop, the
reduction barrier (235) and the summary (236), then the per-epoch telemetry
writes (238-242). -/
def valid_pass (nBatches epoch : ℕ) (a : PassArgs) : Except String (List Ev) := do
  let acc ← (List.range nBatches).foldlM (validBatchStep epoch nBatches a)
    ([] : List Ev)
  let acc := acc ++ [Ev.syncBarrier .validK, Ev.summarize]
  match ← getWriter a with
  | some _ =>
      pure (acc ++
        [Ev.telemetry "valid / loss (epoch)" epoch,
         Ev.telemetry "valid / acc1 (epoch)" epoch,
         Ev.telemetry "valid / acc5 (epoch)" epoch])
  | none => pure acc

/-- One epoch of the driver as seen through the two passes (lines 112-113):
the `train` trace followed by the `valid` trace. -/
def epoch_passes (nBt nBv epoch : ℕ) (a : PassArgs) : Except String (List Ev) := do
  let t ← train_pass nBt epoch a
  let v ← valid_pass nBv epoch a
  pure (t ++ v)

/-- The number of strict improvements over the running best along a score
sequence, starting from best `b`: the property-side count of
best-checkpoint writes ("overwritten only on strict validation-score
improvement"). -/
def improvementCount (b : ℚ) : List ℚ → ℕ
  | [] => 0
  | x :: rest => (if b < x then 1 else 0) + improvementCount (max b x) rest

/-! ## Helper lemmas -/

theorem foldl_applyFlag_pin_memory (flags : List CliFlag) (ns : ArgNamespace)
    (h : ns.pin_memory = true) :
    (flags.foldl applyFlag ns).pin_memory = true := by
  induction flags generalizing ns with
  | nil => exact h
  | cons f rest ih =>
    cases f <;> exact ih _ (by simp [applyFlag, h])

theorem if_lt_eq_max (a b : ℚ) : (if a < b then b else a) = max a b := by
  rcases le_or_lt b a with h | h
  · simp [not_lt.mpr h, max_eq_left h]
  · simp [h, max_eq_right h.le]

theorem epochBody_eq (sd : Bool) (ms os e : ℕ) (sc : ℚ) (st : DriverState) :
    epochBody sd ms os e sc st =
      { sched := st.sched.step,
        best_accuracy := max st.best_accuracy sc,
        ckptFile := if sd then some (mkCheckpoint e ms os st.sched.step)
          else st.ckptFile,
        bestFile := if st.best_accuracy < sc then
            (if sd then some (mkCheckpoint e ms os st.sched.step)
             else st.bestFile)
          else st.bestFile,
        events := st.events ++
          ([DrvEv.trainPass e, DrvEv.validPass e, DrvEv.schedStep e] ++
           (if sd then [DrvEv.saveCkpt e] else []) ++
           (if st.best_accuracy < sc then
              (if sd then [DrvEv.saveBest e] else []) else [])) } := by
  by_cases h : st.best_accuracy < sc
  · cases sd <;> simp [epochBody, h, max_eq_right h.le]
  · cases sd <;> simp [epochBody, h, max_eq_left (not_lt.mp h)]

theorem driverLoop_sched (sd : Bool) (ms os : ℕ) (s : List ℚ) :
    ∀ (e : ℕ) (st : DriverState),
      (driverLoop sd ms os e s st).sched =
        { st.sched with last_epoch := st.sched.last_epoch + s.length } := by
  induction s with
  | nil => intro e st; simp [driverLoop]
  | cons x rest ih =>
    intro e st
    rw [driverLoop, ih, epochBody_eq]
    simp [StepLR.step, Nat.add_assoc, Nat.add_comm 1 rest.length]

theorem driverLoop_best (sd : Bool) (ms os : ℕ) (s : List ℚ) :
    ∀ (e : ℕ) (st : DriverState),
      (driverLoop sd ms os e s st).best_accuracy =
        s.foldl max st.best_accuracy := by
  induction s with
  | nil => intro e st; simp [driverLoop]
  | cons x rest ih =>
    intro e st
    rw [driverLoop, ih, epochBody_eq]
    rfl

theorem le_foldl_max (s : List ℚ) : ∀ b : ℚ, b ≤ s.foldl max b := by
  induction s with
  | nil => intro b; simp
  | cons x rest ih =>
    intro b
    exact le_trans (le_max_left b x) (ih (max b x))

theorem lt_foldl_max_iff (s : List ℚ) :
    ∀ b c : ℚ, c < s.foldl max b ↔ c < b ∨ ∃ x ∈ s, c < x := by
  induction s with
  | nil => intro b c; simp
  | cons x rest ih =>
    intro b c
    rw [List.foldl_cons, ih]
    simp [lt_max_iff, or_assoc]

theorem driverLoop_ckptFile (ms os : ℕ) (s : List ℚ) :
    ∀ (e : ℕ) (st : DriverState), s ≠ [] →
      (driverLoop true ms os e s st).ckptFile =
        some { epoch := some (e + (s.length - 1)), model := ms,
               optimizer := some os,
               scheduler := some (st.sched.last_epoch + s.length) } := by
  induction s with
  | nil => intro e st h; exact absurd rfl h
  | cons x rest ih =>
    intro e st _
    rw [driverLoop]
    rcases eq_or_ne rest ([] : List ℚ) with hr | hr
    · subst hr
      simp [driverLoop, epochBody_eq, mkCheckpoint, StepLR.step,
        StepLR.state_dict]
    · rw [ih (e + 1) _ hr]
      have hL : 1 ≤ rest.length := List.length_pos.mpr hr
      simp only [epochBody_eq, StepLR.step, List.length_cons,
        Option.some.injEq, Checkpoint.mk.injEq, true_and, and_true]
      omega

theorem driverLoop_countP_saveBest (ms os : ℕ) (s : List ℚ) :
    ∀ (e : ℕ) (st : DriverState),
      ((driverLoop true ms os e s st).events).countP (fun ev => ev.isSaveBest) =
        (st.events).countP (fun ev => ev.isSaveBest) +
          improvementCount st.best_accuracy s := by
  induction s with
  | nil => intro e st; simp [driverLoop, improvementCount]
  | cons x rest ih =>
    intro e st
    rw [driverLoop, ih, epochBody_eq]
    by_cases h : st.best_accuracy < x <;>
      · simp [improvementCount, h, List.countP_append, List.countP_cons,
          DrvEv.isSaveBest]
        try omega

theorem driverLoop_events_core (sd : Bool) (ms os : ℕ) (s : List ℚ) :
    ∀ (e : ℕ) (st : DriverState),
      ((driverLoop sd ms os e s st).events).filter (fun ev => !ev.isSaveBest) =
        (st.events).filter (fun ev => !ev.isSaveBest) ++
          (List.range' e s.length).flatMap (fun i =>
            [DrvEv.trainPass i, DrvEv.validPass i, DrvEv.schedStep i] ++
            (if sd then [DrvEv.saveCkpt i] else [])) := by
  induction s with
  | nil => intro e st; simp [driverLoop]
  | cons x rest ih =>
    intro e st
    rw [driverLoop, ih, epochBody_eq]
    have hr : List.range' e (rest.length + 1) = e :: List.range' (e + 1) rest.length := by
      simpa using List.range'_succ e rest.length 1
    rw [List.length_cons, hr]
    by_cases h : st.best_accuracy < x <;>
      cases sd <;>
        simp [h, List.filter_append, DrvEv.isSaveBest]

theorem driverLoop_bestFile (ms os : ℕ) (s : List ℚ) :
    ∀ (e : ℕ) (st : DriverState),
      (driverLoop true ms os e s st).bestFile =
        if s.foldl max st.best_accuracy ≤ st.best_accuracy then st.bestFile
        else some { epoch := some (e + s.indexOf (s.foldl max st.best_accuracy)),
                    model := ms, optimizer := some os,
                    scheduler := some (st.sched.last_epoch +
                      s.indexOf (s.foldl max st.best_accuracy) + 1) } := by
  induction s with
  | nil => intro e st; simp [driverLoop]
  | cons x rest ih =>
    intro e st
    rw [driverLoop, ih (e + 1)]
    simp only [epochBody_eq, List.foldl_cons]
    set b := st.best_accuracy with hbdef
    set M := rest.foldl max (max b x) with hMdef
    have hbx : b ≤ max b x := le_max_left _ _
    have hxM : max b x ≤ M := le_foldl_max rest (max b x)
    by_cases h1 : M ≤ b
    · have h2 : M ≤ max b x := le_trans h1 hbx
      have hx : ¬ b < x :=
        not_lt.mpr (le_trans (le_max_right b x) (le_trans hxM h1))
      simp [h1, h2, hx]
    · push_neg at h1
      have hnotle : ¬ M ≤ b := not_le.mpr h1
      by_cases h2 : M ≤ max b x
      · have hMx : M = max b x := le_antisymm h2 hxM
        have hMeqx : M = x := by
          rcases max_choice b x with hc | hc
          · exfalso
            rw [hMx, hc] at h1
            exact lt_irrefl b h1
          · rw [hMx, hc]
        have hblt : b < x := hMeqx ▸ h1
        simp [h2, hblt, not_le.mpr hblt, hnotle, hMeqx,
          List.indexOf_cons_self, mkCheckpoint, StepLR.step, StepLR.state_dict]
      · push_neg at h2
        have hxneM : x ≠ M := ne_of_lt (lt_of_le_of_lt (le_max_right b x) h2)
        have hidx : (x :: rest).indexOf M = rest.indexOf M + 1 := by
          rw [List.indexOf_cons_ne _ hxneM]
        simp only [not_le.mpr h2, hnotle, if_false, hidx, StepLR.step,
          Option.some.injEq, Checkpoint.mk.injEq, true_and, and_true]
        constructor
        · omega
        · omega

/-! ## Claim theorems: parser and driver -/

/-- C10: For every command line accepted by the parser, the parsed
`pin_memory` attribute is `True` — in particular `--no-pin-memory` stores
`False` into the differently named attribute `pin-memory` and never changes
`pin_memory` — so both DataLoaders are always constructed with
`pin_memory=True`. -/
theorem spec_c10_pin_memory_always_true (flags : List CliFlag)
    (batch_size num_workers : ℕ) :
    (parse_args flags).pin_memory = true ∧
    (build_dataloader batch_size num_workers
      (parse_args flags).pin_memory).1.pin_memory = true ∧
    (build_dataloader batch_size num_workers
      (parse_args flags).pin_memory).2.pin_memory = true := by
  have h : (parse_args flags).pin_memory = true :=
    foldl_applyFlag_pin_memory flags parserDefaults rfl
  exact ⟨h, by simp [build_dataloader, h], by simp [build_dataloader, h]⟩

/-- C2: If `--resume` is given and the loaded checkpoint lacks any of the
keys `optimizer`, `scheduler` or `epoch`, then (with the default
`--start-epoch 0`) training starts at epoch 0, keeps the fresh optimizer
state, and ends the resume block with the scheduler in its freshly
constructed state — not at the checkpoint's stored `epoch + 1`. -/
theorem spec_c2_partial_resume_fresh (ck : Checkpoint) (opt0 ss : ℕ)
    (g lr : ℚ)
    (h : ck.optimizer = none ∨ ck.scheduler = none ∨ ck.epoch = none) :
    resume_from ck 0 opt0 (StepLR.init ss g lr) =
      { start_epoch := 0, optimizer := opt0,
        scheduler := StepLR.init ss g lr } := by
  rcases ck with ⟨eo, m, oo, so⟩
  cases eo <;> cases oo <;> cases so <;>
    simp_all [resume_from, StepLR.step_to, StepLR.init]

/-- Witness for C2 at a concrete checkpoint missing the `optimizer` key. -/
theorem spec_c2_witness :
    resume_from
      { epoch := some 41, model := 7, optimizer := none,
        scheduler := some 9 } 0 3 (StepLR.init 30 (1/10) (1/1000)) =
      { start_epoch := 0, optimizer := 3,
        scheduler := StepLR.init 30 (1/10) (1/1000) } :=
  spec_c2_partial_resume_fresh _ 3 30 (1/10) (1/1000) (Or.inl rfl)

/-- C5: For every epoch in `[start_epoch, total_epochs)`, taken in strictly
increasing order, the driver runs exactly one train pass, then exactly one
valid pass, then exactly one scheduler step, in that order, before writing
the epoch's rolling checkpoint: the loop's event trace (best-checkpoint
writes aside) is exactly the concatenation, over the increasing epoch list,
of `[trainPass e, validPass e, schedStep e, saveCkpt e]` (the last only when
a save directory is configured). -/
theorem spec_c5_epoch_loop_shape (sd : Bool) (ms os start ss : ℕ) (g lr : ℚ)
    (s : List ℚ) :
    ((driverLoop sd ms os start s (initDriver (StepLR.init ss g lr))).events).filter
        (fun ev => !ev.isSaveBest) =
      (List.range' start s.length).flatMap (fun e =>
        [DrvEv.trainPass e, DrvEv.validPass e, DrvEv.schedStep e] ++
        (if sd then [DrvEv.saveCkpt e] else [])) := by
  simpa [initDriver] using
    driverLoop_events_core sd ms os s start (initDriver (StepLR.init ss g lr))

/-- C4 counterexample: with the single validation score `0` (and a save
directory configured), no best checkpoint is ever written — `best_accuracy`
starts at `0.` and `0 < 0` is false — so the best checkpoint on disk does
not correspond to the argmax epoch (epoch `0`, the first index attaining the
maximal score `0`), refuting the claim's final clause as stated. -/
theorem spec_c4_counterexample :
    ((driverLoop true 0 0 0 [(0 : ℚ)] (initDriver (StepLR.init 30 0 0))).bestFile).map
        Checkpoint.epoch ≠
      some (some (0 + [(0 : ℚ)].indexOf ([(0 : ℚ)].foldl max 0))) := by
  rw [show ((driverLoop true 0 0 0 [(0 : ℚ)]
      (initDriver (StepLR.init 30 0 0))).bestFile).map Checkpoint.epoch =
    none from rfl]
  simp

/-- C4 (amended): across any sequence of validation scores, `best_accuracy`
is monotonically non-decreasing from epoch to epoch, `best_checkpoint.pth`
is (re)written exactly when the current epoch's score strictly exceeds the
best so far (ties never trigger a rewrite), and — provided some score
strictly exceeds the initial `best_accuracy` of `0.` — the best checkpoint
on disk after the full run is the one of the first epoch attaining the
maximal score; if no score exceeds `0.`, no best checkpoint is ever
written. -/
theorem spec_c4_best_tracking (ms os e ss : ℕ) (g lr : ℚ) (s t₁ t₂ : List ℚ)
    (hs : s = t₁ ++ t₂) :
    (driverLoop true ms os e t₁ (initDriver (StepLR.init ss g lr))).best_accuracy ≤
      (driverLoop true ms os e s (initDriver (StepLR.init ss g lr))).best_accuracy ∧
    ((driverLoop true ms os e s (initDriver (StepLR.init ss g lr))).events).countP
        (fun ev => ev.isSaveBest) = improvementCount 0 s ∧
    ((∃ x ∈ s, (0 : ℚ) < x) →
      ((driverLoop true ms os e s (initDriver (StepLR.init ss g lr))).bestFile).map
          Checkpoint.epoch =
        some (some (e + s.indexOf (s.foldl max 0)))) ∧
    ((∀ x ∈ s, x ≤ (0 : ℚ)) →
      (driverLoop true ms os e s (initDriver (StepLR.init ss g lr))).bestFile =
        none) := by
  subst hs
  refine ⟨?_, ?_, ?_, ?_⟩
  · rw [driverLoop_best, driverLoop_best]
    simp only [initDriver]
    rw [List.foldl_append]
    exact le_foldl_max t₂ _
  · rw [driverLoop_countP_saveBest]
    simp [initDriver]
  · intro hex
    have hpos : (0 : ℚ) < (t₁ ++ t₂).foldl max 0 :=
      (lt_foldl_max_iff (t₁ ++ t₂) 0 0).mpr (Or.inr hex)
    rw [driverLoop_bestFile]
    simp only [initDriver]
    rw [if_neg (not_le.mpr hpos)]
    simp
  · intro hall
    have hle : (t₁ ++ t₂).foldl max 0 ≤ 0 := by
      by_contra hcon
      push_neg at hcon
      rcases (lt_foldl_max_iff (t₁ ++ t₂) 0 0).mp hcon with h0 | ⟨x, hx, h0⟩
      · exact lt_irrefl 0 h0
      · exact absurd h0 (not_lt.mpr (hall x hx))
    rw [List.foldl_append] at hle
    rw [driverLoop_bestFile]
    simp [initDriver, hle]

/-- Witness for C4 at a concrete run: scores `[2, 1]`, split as
`[2] ++ [1]`, where some score exceeds `0`; the final best checkpoint is
the one of epoch `0`, the first epoch attaining the maximum. -/
theorem spec_c4_witness :
    ((driverLoop true 0 0 0 [(2 : ℚ), 1]
        (initDriver (StepLR.init 30 1 1))).bestFile).map Checkpoint.epoch =
      some (some (0 + [(2 : ℚ), 1].indexOf ([(2 : ℚ), 1].foldl max 0))) :=
  (spec_c4_best_tracking 0 0 0 30 1 1 [(2 : ℚ), 1] [(2 : ℚ)]
    [(1 : ℚ)] rfl).2.2.1 (by decide)

/-- C3: when resuming from the (complete) rolling checkpoint written after
the last epoch of a first run over scores `s₁` (so the checkpoint of epoch
`E = s₁.length - 1`), `start_epoch` becomes `E + 1 = s₁.length`, and after
training the resumed run through any further scores `s₂` the scheduler state
(hence the learning-rate trajectory) equals that of an uninterrupted run
over `s₁ ++ s₂`. -/
theorem spec_c3_resume_scheduler_equiv (ms os opt0 ss : ℕ) (g lr : ℚ)
    (s₁ s₂ : List ℚ) (h : s₁ ≠ []) (ck : Checkpoint)
    (hck : (driverLoop true ms os 0 s₁
        (initDriver (StepLR.init ss g lr))).ckptFile = some ck) :
    (resume_from ck 0 opt0 (StepLR.init ss g lr)).start_epoch = s₁.length ∧
    (driverLoop true ms os
        (resume_from ck 0 opt0 (StepLR.init ss g lr)).start_epoch s₂
        (initDriver (resume_from ck 0 opt0 (StepLR.init ss g lr)).scheduler)).sched =
      (driverLoop true ms os 0 (s₁ ++ s₂)
        (initDriver (StepLR.init ss g lr))).sched := by
  rw [driverLoop_ckptFile ms os s₁ 0 _ h] at hck
  have hck' : ck =
      { epoch := some (0 + (s₁.length - 1)), model := ms,
        optimizer := some os,
        scheduler := some ((initDriver (StepLR.init ss g lr)).sched.last_epoch +
          s₁.length) } := (Option.some.inj hck).symm
  subst hck'
  have hL : 1 ≤ s₁.length := List.length_pos.mpr h
  constructor
  · simp only [resume_from]
    omega
  · rw [driverLoop_sched, driverLoop_sched]
    simp only [resume_from, initDriver, StepLR.load_state_dict,
      StepLR.step_to, StepLR.init, List.length_append, StepLR.mk.injEq,
      true_and, and_true]
    omega

/-- Witness for C3 at a concrete run: first run over `[1]`, checkpoint of
epoch `0`, resume and continue over `[2]`. -/
theorem spec_c3_witness :
    (resume_from
      { epoch := some (0 + ([(1 : ℚ)].length - 1)), model := 0,
        optimizer := some 0,
        scheduler := some ((initDriver (StepLR.init 30 1 1)).sched.last_epoch +
          [(1 : ℚ)].length) } 0 0 (StepLR.init 30 1 1)).start_epoch =
      [(1 : ℚ)].length ∧
    (driverLoop true 0 0
        (resume_from
          { epoch := some (0 + ([(1 : ℚ)].length - 1)), model := 0,
            optimizer := some 0,
            scheduler := some ((initDriver (StepLR.init 30 1 1)).sched.last_epoch +
              [(1 : ℚ)].length) } 0 0 (StepLR.init 30 1 1)).start_epoch [(2 : ℚ)]
        (initDriver
          (resume_from
            { epoch := some (0 + ([(1 : ℚ)].length - 1)), model := 0,
              optimizer := some 0,
              scheduler := some ((initDriver (StepLR.init 30 1 1)).sched.last_epoch +
                [(1 : ℚ)].length) } 0 0 (StepLR.init 30 1 1)).scheduler)).sched =
      (driverLoop true 0 0 0 ([(1 : ℚ)] ++ [(2 : ℚ)])
        (initDriver (StepLR.init 30 1 1))).sched :=
  spec_c3_resume_scheduler_equiv 0 0 0 30 1 1 [(1 : ℚ)] [(2 : ℚ)]
    (by decide) _ rfl

/-! ## Helper lemmas about the pass traces -/

theorem filter_flatMap_eq {α β : Type} (l : List α) (f : α → List β)
    (p : β → Bool) :
    (l.flatMap f).filter p = l.flatMap (fun x => (f x).filter p) := by
  induction l with
  | nil => simp
  | cons a l ih => simp [List.filter_append, ih]

theorem trainBatchStep_eq (e nB : ℕ) (a : PassArgs) (w : Option Unit)
    (hw : a.writer = some w) (acc : List Ev) (idx : ℕ) :
    trainBatchStep e nB a acc idx = .ok (acc ++
      ([Ev.forwardB, Ev.computeLoss, Ev.computeMetrics, Ev.zeroGrad,
        Ev.backward, Ev.optStep, Ev.record "loss", Ev.record "acc1",
        Ev.record "acc5", Ev.display] ++
       (if w.isSome then
          [Ev.telemetry "train / loss (batch)" (e * nB + idx),
           Ev.telemetry "train / acc1 (batch)" (e * nB + idx),
           Ev.telemetry "train / acc5 (batch)" (e * nB + idx)] else []))) := by
  cases w <;>
    simp [trainBatchStep, getWriter, hw, Except.instMonad, Except.bind,
      Except.pure]

theorem foldlM_trainBatchStep (e nB : ℕ) (a : PassArgs) (w : Option Unit)
    (hw : a.writer = some w) (l : List ℕ) :
    ∀ acc : List Ev, l.foldlM (trainBatchStep e nB a) acc =
      .ok (acc ++ l.flatMap (fun idx =>
        [Ev.forwardB, Ev.computeLoss, Ev.computeMetrics, Ev.zeroGrad,
         Ev.backward, Ev.optStep, Ev.record "loss", Ev.record "acc1",
         Ev.record "acc5", Ev.display] ++
        (if w.isSome then
           [Ev.telemetry "train / loss (batch)" (e * nB + idx),
            Ev.telemetry "train / acc1 (batch)" (e * nB + idx),
            Ev.telemetry "train / acc5 (batch)" (e * nB + idx)] else []))) := by
  induction l with
  | nil => intro acc; simp; rfl
  | cons i l ih =>
    intro acc
    rw [List.foldlM_cons, trainBatchStep_eq e nB a w hw]
    simp only [Except.instMonad, Except.bind]
    rw [ih]
    simp [List.append_assoc]

theorem train_pass_eq (nB e : ℕ) (a : PassArgs) (w : Option Unit)
    (hw : a.writer = some w) :
    train_pass nB e a = .ok (
      (List.range nB).flatMap (fun idx =>
        [Ev.forwardB, Ev.computeLoss, Ev.computeMetrics, Ev.zeroGrad,
         Ev.backward, Ev.optStep, Ev.record "loss", Ev.record "acc1",
         Ev.record "acc5", Ev.display] ++
        (if w.isSome then
           [Ev.telemetry "train / loss (batch)" (e * nB + idx),
            Ev.telemetry "train / acc1 (batch)" (e * nB + idx),
            Ev.telemetry "train / acc5 (batch)" (e * nB + idx)] else [])) ++
      ([Ev.syncBarrier PassKind.trainK, Ev.summarize] ++
       (if w.isSome then
          [Ev.telemetry "train / loss (epoch)" e,
           Ev.telemetry "train / acc1 (epoch)" e,
           Ev.telemetry "train / acc5 (epoch)" e] else []))) := by
  cases w <;>
    simp [train_pass, foldlM_trainBatchStep e nB a _ hw, getWriter, hw,
      Except.instMonad, Except.bind, Except.pure, List.append_assoc]

theorem validBatchStep_eq (e nB : ℕ) (a : PassArgs) (w : Option Unit)
    (hw : a.writer = some w) (acc : List Ev) (idx : ℕ) :
    validBatchStep e nB a acc idx = .ok (acc ++
      ([Ev.forwardB, Ev.computeLoss, Ev.computeMetrics, Ev.record "loss",
        Ev.record "acc1", Ev.record "acc5", Ev.display] ++
       (if w.isSome then
          [Ev.telemetry "valid / loss (batch)" (e * nB + idx),
           Ev.telemetry "valid / acc1 (batch)" (e * nB + idx),
           Ev.telemetry "valid / acc5 (batch)" (e * nB + idx)] else []))) := by
  cases w <;>
    simp [validBatchStep, getWriter, hw, Except.instMonad, Except.bind,
      Except.pure]

theorem foldlM_validBatchStep (e nB : ℕ) (a : PassArgs) (w : Option Unit)
    (hw : a.writer = some w) (l : List ℕ) :
    ∀ acc : List Ev, l.foldlM (validBatchStep e nB a) acc =
      .ok (acc ++ l.flatMap (fun idx =>
        [Ev.forwardB, Ev.computeLoss, Ev.computeMetrics, Ev.record "loss",
         Ev.record "acc1", Ev.record "acc5", Ev.display] ++
        (if w.isSome then
           [Ev.telemetry "valid / loss (batch)" (e * nB + idx),
            Ev.telemetry "valid / acc1 (batch)" (e * nB + idx),
            Ev.telemetry "valid / acc5 (batch)" (e * nB + idx)] else []))) := by
  induction l with
  | nil => intro acc; simp; rfl
  | cons i l ih =>
    intro acc
    rw [List.foldlM_cons, validBatchStep_eq e nB a w hw]
    simp only [Except.instMonad, Except.bind]
    rw [ih]
    simp [List.append_assoc]

theorem valid_pass_eq (nB e : ℕ) (a : PassArgs) (w : Option Unit)
    (hw : a.writer = some w) :
    valid_pass nB e a = .ok (
      (List.range nB).flatMap (fun idx =>
        [Ev.forwardB, Ev.computeLoss, Ev.computeMetrics, Ev.record "loss",
         Ev.record "acc1", Ev.record "acc5", Ev.display] ++
        (if w.isSome then
           [Ev.telemetry "valid / loss (batch)" (e * nB + idx),
            Ev.telemetry "valid / acc1 (batch)" (e * nB + idx),
            Ev.telemetry "valid / acc5 (batch)" (e * nB + idx)] else [])) ++
      ([Ev.syncBarrier PassKind.validK, Ev.summarize] ++
       (if w.isSome then
          [Ev.telemetry "valid / loss (epoch)" e,
           Ev.telemetry "valid / acc1 (epoch)" e,
           Ev.telemetry "valid / acc5 (epoch)" e] else []))) := by
  cases w <;>
    simp [valid_pass, foldlM_validBatchStep e nB a _ hw, getWriter, hw,
      Except.instMonad, Except.bind, Except.pure, List.append_assoc]

theorem flatMap_const_nil {α β : Type} (l : List α) :
    (l.flatMap fun _ => ([] : List β)) = [] := by
  induction l with
  | nil => simp
  | cons a l ih => simp [ih]

/-! ## Claim theorems: pass traces -/

/-- C1: In every epoch of the driver loop (train pass at line 112 then valid
pass at line 113), a process whose `args.writer` attribute is assigned calls
`synchronize_between_processes` exactly twice — the barrier events of the
epoch trace are exactly `[syncBarrier trainK, syncBarrier validK]`: one at
the end of the train pass, one at the end of the valid pass, the train-pass
barrier strictly first. -/
theorem spec_c1_sync_twice_train_before_valid (nBt nBv e : ℕ) (a : PassArgs)
    (w : Option Unit) (hw : a.writer = some w) :
    (epoch_passes nBt nBv e a).map (fun tr => tr.filter Ev.isSync) =
      .ok [Ev.syncBarrier PassKind.trainK, Ev.syncBarrier PassKind.validK] := by
  simp only [epoch_passes, train_pass_eq nBt e a w hw,
    valid_pass_eq nBv e a w hw, Except.instMonad, Except.bind, Except.pure,
    Except.map]
  cases w <;> simp [Ev.isSync, List.filter_append, filter_flatMap_eq,
    flatMap_const_nil]

/-- Witness for C1 at a concrete epoch: one train batch, one valid batch,
writer attribute assigned to a `SummaryWriter`. -/
theorem spec_c1_witness :
    (epoch_passes 1 1 0 ⟨some "tb", some (some ()), 300⟩).map
      (fun tr => tr.filter Ev.isSync) =
      .ok [Ev.syncBarrier PassKind.trainK, Ev.syncBarrier PassKind.validK] :=
  spec_c1_sync_twice_train_before_valid 1 1 0 ⟨some "tb", some (some ()), 300⟩
    (some ()) rfl

/-- C6 counterexample: at a concrete one-batch train pass, the per-batch
operation order is `forward, loss, metrics, zero_grad, backward, step,
record`, not the claimed `zero_grad, forward, loss, metrics, backward, step,
record` — the code zeroes gradients at line 178, after the forward (174),
the loss (175) and the metrics (176). -/
theorem spec_c6_counterexample :
    (train_pass 1 0 ⟨some "tb", some (some ()), 300⟩).map
        (fun tr => tr.filter Ev.isOp) ≠
      Except.ok [Ev.zeroGrad, Ev.forwardB, Ev.computeLoss, Ev.computeMetrics,
        Ev.backward, Ev.optStep, Ev.record "loss", Ev.record "acc1",
        Ev.record "acc5"] := by
  rw [show (train_pass 1 0 ⟨some "tb", some (some ()), 300⟩).map
        (fun tr => tr.filter Ev.isOp) =
    Except.ok [Ev.forwardB, Ev.computeLoss, Ev.computeMetrics, Ev.zeroGrad,
      Ev.backward, Ev.optStep, Ev.record "loss", Ev.record "acc1",
      Ev.record "acc5"] from rfl]
  intro hEq
  exact absurd (Except.ok.inj hEq) (by decide)

/-- C6 (amended): in a train pass, for every batch the operations occur in
the order: forward → compute loss → compute metrics → zero gradients →
backward → optimizer step → record metrics (the three `tracker.update`
calls). -/
theorem spec_c6_batch_op_order (nB e : ℕ) (a : PassArgs) (w : Option Unit)
    (hw : a.writer = some w) :
    (train_pass nB e a).map (fun tr => tr.filter Ev.isOp) =
      .ok ((List.range nB).flatMap (fun _ =>
        [Ev.forwardB, Ev.computeLoss, Ev.computeMetrics, Ev.zeroGrad,
         Ev.backward, Ev.optStep, Ev.record "loss", Ev.record "acc1",
         Ev.record "acc5"])) := by
  rw [train_pass_eq nB e a w hw]
  simp only [Except.map]
  cases w <;> simp [Ev.isOp, List.filter_append, filter_flatMap_eq,
    flatMap_const_nil]

/-- Witness for C6 at a concrete two-batch train pass on a non-main process
(writer attribute assigned to `None`). -/
theorem spec_c6_witness :
    (train_pass 2 0 ⟨some "tb", some none, 300⟩).map
        (fun tr => tr.filter Ev.isOp) =
      .ok ((List.range 2).flatMap (fun _ =>
        [Ev.forwardB, Ev.computeLoss, Ev.computeMetrics, Ev.zeroGrad,
         Ev.backward, Ev.optStep, Ev.record "loss", Ev.record "acc1",
         Ev.record "acc5"])) :=
  spec_c6_batch_op_order 2 0 ⟨some "tb", some none, 300⟩ none rfl

/-- C8 (code bug): when no telemetry directory is configured, the
lines 99-103 block never assigns the `writer` attribute, so the first read
of `args.writer` in `train` (line 189, or line 199 for an empty loader)
raises `AttributeError` instead of completing the pass without telemetry;
with a directory configured, a non-main process gets `writer = None` and
performs no telemetry writes (only the main process holds the sink). -/
theorem spec_c8_writer_attribute_error :
    setup_writer none true = none ∧ setup_writer none false = none ∧
    train_pass 1 0 ⟨none, setup_writer none true, 300⟩ =
      .error "AttributeError: writer" ∧
    valid_pass 1 0 ⟨none, setup_writer none true, 300⟩ =
      .error "AttributeError: writer" ∧
    (train_pass 1 0 ⟨some "tb", setup_writer (some "tb") false, 300⟩).map
      (fun tr => tr.filter Ev.isTelemetry) = .ok [] :=
  ⟨rfl, rfl, rfl, rfl, rfl⟩

/-! ## Helper lemmas about the metric tracker -/

theorem lookup_updateEntry_self (l : List (String × ValueTracker))
    (name : String) (v : ℚ) :
    (updateEntry l name v).lookup name =
      some (((l.lookup name).getD ValueTracker.init).update v) := by
  induction l with
  | nil => simp [updateEntry, List.lookup]
  | cons p rest ih =>
    obtain ⟨n, vt⟩ := p
    by_cases h : n = name
    · subst h
      simp [updateEntry, List.lookup]
    · have hb : (name == n) = false := beq_eq_false_iff_ne.mpr (Ne.symm h)
      simp [updateEntry, h, List.lookup, hb, ih]

theorem lookup_updateEntry_ne (l : List (String × ValueTracker))
    (name m : String) (v : ℚ) (hm : m ≠ name) :
    (updateEntry l name v).lookup m = l.lookup m := by
  induction l with
  | nil =>
    have hb : (m == name) = false := beq_eq_false_iff_ne.mpr hm
    simp [updateEntry, List.lookup, hb]
  | cons p rest ih =>
    obtain ⟨n, vt⟩ := p
    by_cases h : n = name
    · subst h
      have hb : (m == n) = false := beq_eq_false_iff_ne.mpr hm
      simp [updateEntry, List.lookup, hb]
    · by_cases hmn : m = n
      · subst hmn
        simp [updateEntry, h, List.lookup]
      · have hb : (m == n) = false := beq_eq_false_iff_ne.mpr hmn
        simp [updateEntry, h, List.lookup, hb, ih]

theorem lookup_trackBatch_acc1 (t : EpochTracker) (b : BatchMetrics) :
    lookupVT (trackBatch t b) "acc1" =
      some (((lookupVT t "acc1").getD ValueTracker.init).update b.acc1) := by
  show (updateEntry (updateEntry (updateEntry t.trackers "loss" b.loss)
      "acc1" b.acc1) "acc5" b.acc5).lookup "acc1" = _
  rw [lookup_updateEntry_ne _ _ _ _ (by decide)]
  rw [lookup_updateEntry_self]
  rw [lookup_updateEntry_ne _ _ _ _ (by decide)]
  rfl

theorem foldl_trackBatch_acc1 (bs : List BatchMetrics) :
    ∀ t : EpochTracker,
      ((lookupVT (bs.foldl trackBatch t) "acc1").getD ValueTracker.init).total =
        ((lookupVT t "acc1").getD ValueTracker.init).total +
          (bs.map BatchMetrics.acc1).sum ∧
      ((lookupVT (bs.foldl trackBatch t) "acc1").getD ValueTracker.init).count =
        ((lookupVT t "acc1").getD ValueTracker.init).count + bs.length := by
  induction bs with
  | nil => intro t; simp
  | cons b rest ih =>
    intro t
    rw [List.foldl_cons]
    obtain ⟨h1, h2⟩ := ih (trackBatch t b)
    rw [h1, h2, lookup_trackBatch_acc1]
    simp only [Option.getD_some, ValueTracker.update, List.map_cons,
      List.sum_cons, List.length_cons]
    constructor
    · ring
    · omega

theorem lookup_foldl_trackBatch_isSome (bs : List BatchMetrics) :
    ∀ t : EpochTracker, bs ≠ [] →
      (lookupVT (bs.foldl trackBatch t) "acc1").isSome = true := by
  induction bs with
  | nil => intro t h; exact absurd rfl h
  | cons b rest ih =>
    intro t _
    rw [List.foldl_cons]
    rcases eq_or_ne rest ([] : List BatchMetrics) with hr | hr
    · subst hr
      simp [lookup_trackBatch_acc1]
    · exact ih (trackBatch t b) hr

theorem lookup_map_entry (l : List (String × ValueTracker))
    (g : String → ValueTracker → ValueTracker) (name : String) :
    (l.map (fun q => (q.1, g q.1 q.2))).lookup name =
      (l.lookup name).map (g name) := by
  induction l with
  | nil => simp
  | cons p rest ih =>
    obtain ⟨n, vt⟩ := p
    by_cases h : name = n
    · subst h
      simp [List.lookup]
    · have hb : (name == n) = false := beq_eq_false_iff_ne.mpr h
      simp [List.lookup, hb, ih]

theorem lookup_syncTracker (w : List EpochTracker) (t : EpochTracker)
    (name : String) :
    lookupVT (syncTracker w t) name =
      (lookupVT t name).map (fun vt =>
        { vt with total := worldTotal w name, count := worldCount w name }) := by
  show (t.trackers.map _).lookup name = _
  exact lookup_map_entry t.trackers
    (fun n vt => { vt with total := worldTotal w n, count := worldCount w n })
    name

/-- C7: On every process `p` of the world, the `valid` pass returns exactly
one scalar: `tracker.trackers['acc1'].global_average` after the
cross-process reduction, which equals the sum of all per-batch top-1
accuracy readings over all processes divided by the total number of batches
over all processes — the epoch's global-average top-1 accuracy.  This is the
value bound to `score` at line 113 and compared against `best_accuracy` at
line 126. -/
theorem spec_c7_valid_return_global_average (world : List (List BatchMetrics))
    (p : ℕ) (hp : p < world.length) (hne : world.getD p [] ≠ []) :
    valid_score world p =
      (world.map (fun bs => (bs.map BatchMetrics.acc1).sum)).sum /
        (((world.map List.length).sum : ℕ) : ℚ) := by
  have htot1 : ∀ bs : List BatchMetrics,
      ((lookupVT (runTracker bs) "acc1").getD ValueTracker.init).total =
        (bs.map BatchMetrics.acc1).sum := by
    intro bs
    have h := (foldl_trackBatch_acc1 bs EpochTracker.empty).1
    simpa [runTracker, lookupVT, EpochTracker.empty, List.lookup,
      ValueTracker.init] using h
  have hcnt1 : ∀ bs : List BatchMetrics,
      ((lookupVT (runTracker bs) "acc1").getD ValueTracker.init).count =
        bs.length := by
    intro bs
    have h := (foldl_trackBatch_acc1 bs EpochTracker.empty).2
    simpa [runTracker, lookupVT, EpochTracker.empty, List.lookup,
      ValueTracker.init] using h
  have htot : worldTotal (world.map runTracker) "acc1" =
      (world.map (fun bs => (bs.map BatchMetrics.acc1).sum)).sum := by
    unfold worldTotal
    rw [List.map_map]
    exact congrArg List.sum (List.map_congr_left (fun bs _ => htot1 bs))
  have hcnt : worldCount (world.map runTracker) "acc1" =
      (world.map List.length).sum := by
    unfold worldCount
    rw [List.map_map]
    exact congrArg List.sum (List.map_congr_left (fun bs _ => hcnt1 bs))
  have hp' : p < (world.map runTracker).length := by simpa using hp
  have hgetd : world.getD p [] = world[p] := List.getD_eq_getElem world [] hp
  rw [hgetd] at hne
  have hsome : (lookupVT (runTracker world[p]) "acc1").isSome = true :=
    lookup_foldl_trackBatch_isSome world[p] EpochTracker.empty hne
  obtain ⟨vt0, hvt0⟩ := Option.isSome_iff_exists.mp hsome
  unfold valid_score
  dsimp only
  rw [List.getD_eq_getElem _ _ hp', List.getElem_map]
  rw [lookup_syncTracker, hvt0]
  simp only [Option.map_some', Option.getD_some]
  dsimp only [ValueTracker.global_average]
  rw [htot, hcnt]

/-- Witness for C7 at a concrete two-process world with one batch each. -/
theorem spec_c7_witness :
    valid_score ([[⟨1, 3, 5⟩], [⟨2, 7, 9⟩]] : List (List BatchMetrics)) 0 =
      (([[⟨1, 3, 5⟩], [⟨2, 7, 9⟩]] : List (List BatchMetrics)).map
          (fun bs => (bs.map BatchMetrics.acc1).sum)).sum /
        (((([[⟨1, 3, 5⟩], [⟨2, 7, 9⟩]] : List (List BatchMetrics)).map
            List.length).sum : ℕ) : ℚ) :=
  spec_c7_valid_return_global_average _ 0 (by decide) (by decide)
